import Mathlib

/-!
Verification model of the ai-doc-analyzer repository.

The repository sources contain the React frontend (src/frontend/src/App.jsx,
holding a newer and an older version of the App component).  Pure fragments of
that file are embedded below as Lean functions: JS strings become String or
List Char, JS objects become structures, fetch outcomes become an inductive
type, and each handler becomes a function from its inputs to the UI state it
produces.  The backend core (ingest, stats, clear, retrieve, answer) is not in
the repository; where a claim depends on it, the component is modelled from
the specification and marked as such in its doc comment.
-/

/-! ## Frontend data model -/

/-- Status message type, mirroring the JS literal union ok and err. -/
inductive StatusType where
  | ok
  | err
deriving Repr, DecidableEq

/-- A status banner, mirroring the JS object with fields type and msg. -/
structure Status where
  type : StatusType
  msg : String
deriving Repr, DecidableEq

/-- A selected browser file, with the two fields handleUpload reads. -/
structure JsFile where
  type : String
  size : Nat
deriving Repr, DecidableEq

/-- Constant MAX_MB from App.jsx line 8. -/
def MAX_MB : Nat := 25

/-- Function BYTES from App.jsx line 9. -/
def BYTES (mb : Nat) : Nat := mb * 1024 * 1024

/-- Outcome of the validation phase of handleUpload: either an error status is
set and no upload request goes out, or the request is sent. -/
structure UploadDecision where
  uploadStatus : Option Status
  requestSent : Bool
deriving Repr, DecidableEq

/-- Validation phase of handleUpload in the newer App version
(App.jsx lines 94-118): missing file, wrong content type and oversize each set
an error status and return before any request; otherwise the upload request is
sent.  The message for the size branch is the template with MAX_MB = 25
substituted. -/
def handleUpload (file : Option JsFile) : UploadDecision :=
  match file with
  | none =>
    { uploadStatus := some { type := .err, msg := "Please choose a PDF to upload." },
      requestSent := false }
  | some f =>
    if f.type ≠ "application/pdf" then
      { uploadStatus := some { type := .err, msg := "Only PDF files are accepted." },
        requestSent := false }
    else if f.size > BYTES MAX_MB then
      { uploadStatus := some { type := .err, msg := "File too large (> 25 MB)." },
        requestSent := false }
    else
      { uploadStatus := none, requestSent := true }

/-- Validation phase of handleUpload in the older App version
(App.jsx lines 747-763), transcribed separately so the two versions can be
compared. -/
def handleUploadOld (file : Option JsFile) : UploadDecision :=
  match file with
  | none =>
    { uploadStatus := some { type := .err, msg := "Please choose a PDF to upload." },
      requestSent := false }
  | some f =>
    if f.type ≠ "application/pdf" then
      { uploadStatus := some { type := .err, msg := "Only PDF files are accepted." },
        requestSent := false }
    else if f.size > BYTES MAX_MB then
      { uploadStatus := some { type := .err, msg := "File too large (> 25 MB)." },
        requestSent := false }
    else
      { uploadStatus := none, requestSent := true }

/-! ## JS string helpers -/

/-- The whitespace characters removed by the JS String trim method
(the ASCII ones; sufficient for the whitespace claims). -/
def isJsWhitespace (c : Char) : Bool :=
  c == ' ' || c == '\t' || c == '\n' || c == '\r' || c == '\x0b' || c == '\x0c'

/-- JS trim: drop whitespace from both ends, returned as a character list. -/
def trimJs (s : String) : List Char :=
  ((s.data.dropWhile isJsWhitespace).reverse.dropWhile isJsWhitespace).reverse

/-! ## handleQuery -/

/-- One entry of the sources array in a query response. -/
structure SourceEntry where
  source : String
  page : Nat
  chunk_id : Nat
  text : String
  score : Option Rat
deriving Repr, DecidableEq

/-- The parsed JSON body of a query response.  A field is none when absent or
of the wrong type: confidence is some exactly when the JS typeof check for
number succeeds, sources is some exactly when Array.isArray succeeds, and the
string fields follow JS truthiness where noted in handleQuery. -/
structure ResponseData where
  error : Option String
  detail : Option String
  answer : Option String
  confidence : Option Rat
  sources : Option (List SourceEntry)
deriving Repr, DecidableEq

/-- How the fetch promise inside handleQuery settles: an HTTP response
(res.ok, res.status, parsed body), an AbortError (the 30 s timer fired), or a
network error. -/
inductive FetchOutcome where
  | response (ok : Bool) (status : Nat) (data : ResponseData)
  | abortError
  | networkError (msg : String)
deriving Repr, DecidableEq

/-- The JSON body handleQuery posts to the query endpoint. -/
structure QueryRequest where
  query : String
  top_k : Nat
  source_filter : Option String
deriving Repr, DecidableEq

/-- The UI state handleQuery leaves behind, together with the list of requests
it sent during the call (the code sends at most one fetch and never retries). -/
structure HandleQueryState where
  queryStatus : Option Status
  answer : String
  confidence : Option Rat
  sources : List SourceEntry
  requests : List QueryRequest
deriving Repr, DecidableEq

/-- JS truthiness of an optional string: present and nonempty. -/
def strTruthy : Option String → Bool
  | some s => !s.data.isEmpty
  | none => false

/-- JS expression a or-else b for an optional string a and default b. -/
def strOrElse (a : Option String) (b : String) : String :=
  match a with
  | some s => if s.data.isEmpty then b else s
  | none => b

/-- The error message handleQuery builds from a non-ok response
(App.jsx lines 174-176). -/
def queryErrMsg (data : ResponseData) (status : Nat) : String :=
  if strTruthy data.error then
    strOrElse data.error "" ++ ": " ++ strOrElse data.detail ""
  else
    strOrElse data.detail ("Query failed (" ++ toString status ++ ").")

/-- Timeout budget in milliseconds set by handleQuery (App.jsx line 159). -/
def queryTimeoutMs : Nat := 30000

/-- What the timer callback does when the budget elapses. -/
inductive TimerHandlerAction where
  | abortInFlight
deriving Repr, DecidableEq

/-- The callback handleQuery installs on the 30 s timer aborts the in-flight
fetch through the AbortController (App.jsx lines 157-159); the aborted fetch
then settles as the abortError outcome. -/
def queryTimeoutHandler : TimerHandlerAction := .abortInFlight

/-- handleQuery from the newer App version (App.jsx lines 143-199), as a
function of the query text, the selected source filter and how the single
fetch settles.  A blank query sets an error and sends nothing; otherwise one
request is sent (requests has exactly one element, whatever the outcome: the
code never retries) and the response, abort or network error determines the
final state. -/
def handleQuery (query sourceFilter : String) (outcome : FetchOutcome) : HandleQueryState :=
  if (trimJs query).isEmpty then
    { queryStatus := some { type := .err, msg := "Type a question first." },
      answer := "", confidence := none, sources := [], requests := [] }
  else
    let req : QueryRequest :=
      { query := query, top_k := 3,
        source_filter := if sourceFilter = "" then none else some sourceFilter }
    match outcome with
    | .response ok status data =>
      if !ok then
        { queryStatus := some { type := .err, msg := queryErrMsg data status },
          answer := "", confidence := none, sources := [], requests := [req] }
      else
        { queryStatus :=
            if (data.answer.getD "").data.isEmpty then
              some { type := .err, msg := "No answer returned." }
            else none,
          answer := data.answer.getD "",
          confidence := data.confidence,
          sources := data.sources.getD [],
          requests := [req] }
    | .abortError =>
      { queryStatus := some { type := .err, msg := "Request timed out." },
        answer := "", confidence := none, sources := [], requests := [req] }
    | .networkError m =>
      { queryStatus := some { type := .err, msg := "Network error: " ++ m },
        answer := "", confidence := none, sources := [], requests := [req] }

/-- The confidence line is rendered exactly when the confidence state is a
number (App.jsx line 571, the JS typeof check; the state is null otherwise). -/
def showConfidence (st : HandleQueryState) : Bool :=
  st.confidence.isSome

/-! ## Stats and the Ask gate -/

/-- indexReady from App.jsx line 52: both reported counts must be positive. -/
def indexReady (vector_count metadata_count : Nat) : Bool :=
  decide (vector_count > 0) && decide (metadata_count > 0)

/-- The disabled expression on the Ask button (App.jsx line 542). -/
def askDisabled (loadingQuery ready : Bool) (query : String) : Bool :=
  loadingQuery || !ready || (trimJs query).isEmpty

/-! ## handleClearIndex -/

/-- The headers object handleClearIndex builds (App.jsx lines 312-314): the
X-Admin-Token header is added only when the admin environment value is truthy
(present and nonempty). -/
def clearHeaders (adminToken : Option String) : List (String × String) :=
  [("Content-Type", "application/json")] ++
    (if strTruthy adminToken then [("X-Admin-Token", strOrElse adminToken "")] else [])

/-- The clear-index request, reduced to the headers it carries. -/
structure ClearRequest where
  headers : List (String × String)
deriving Repr, DecidableEq

/-- handleClearIndex from App.jsx lines 307-319: if the user does not confirm,
nothing is sent; otherwise one POST with the built headers is sent. -/
def handleClearIndex (confirmed : Bool) (adminToken : Option String) : Option ClearRequest :=
  if !confirmed then none
  else some { headers := clearHeaders adminToken }

/-- Whether a (possibly unsent) clear request carries the admin header. -/
def carriesAdminHeader (r : Option ClearRequest) : Bool :=
  match r with
  | none => false
  | some req => req.headers.any (fun h => h.1 == "X-Admin-Token")

/-! ## The Highlight component -/

/-- Lowercase a character list, modelling the JS toLowerCase call
(per-character lowering; length preserving). -/
def lowerChars (s : List Char) : List Char :=
  s.map Char.toLower

/-- The pattern pat occurs in t at position i: the slice of t starting at i,
of length of pat, equals pat. -/
def occursAt (t pat : List Char) (i : Nat) : Prop :=
  (t.drop i).take pat.length = pat

instance (t pat : List Char) (i : Nat) : Decidable (occursAt t pat i) := by
  unfold occursAt
  exact inferInstance

/-- Index of the first occurrence of pat in t, modelling the JS indexOf call
(the JS minus-one result becomes none). -/
def findSub (pat : List Char) : List Char → Option Nat
  | [] => if ([] : List Char).take pat.length = pat then some 0 else none
  | c :: rest =>
    if (c :: rest).take pat.length = pat then some 0
    else (findSub pat rest).map (· + 1)

/-- What the Highlight component renders: either the text as one plain span,
or three segments with the middle one wrapped in a mark element. -/
inductive Rendering where
  | plain (text : List Char)
  | marked (before mid after : List Char)
deriving Repr, DecidableEq

/-- The Highlight component (App.jsx lines 11-25): an empty match (JS falsy)
or a match not found case-insensitively renders the text plainly; otherwise
the text splits at the first case-insensitive occurrence, with the slice of
the original text of the length of the match wrapped in a mark element. -/
def Highlight (text m : List Char) : Rendering :=
  if m.isEmpty then .plain text
  else
    match findSub (lowerChars m) (lowerChars text) with
    | none => .plain text
    | some idx =>
      .marked (text.take idx) ((text.drop idx).take m.length) (text.drop (idx + m.length))

/-- Concatenation of the rendered segments, in display order. -/
def renderText : Rendering → List Char
  | .plain t => t
  | .marked b mid a => b ++ mid ++ a

/-- The marked segment, when one exists. -/
def markedSegment : Rendering → Option (List Char)
  | .plain _ => none
  | .marked _ mid _ => some mid

/-! ## Backend core, modelled from the spec

The backend package (chunker, embedder, vector index, metadata store,
ingestion, retrieval, ranking) is not among the repository sources; only the
frontend is.  The definitions below are therefore modelled from the
specification, each marked in its doc comment, and the claims that depend on
them are settled against this model. -/

/-- A chunk record, from the data model section of the spec. -/
structure Chunk where
  source : String
  page : Nat
  chunk_id : Nat
  text : String
  char_span : Nat × Nat
deriving Repr, DecidableEq

/-- Modelled from the spec: chunker configuration, chunk size in characters.
The spec fixes no concrete value; overlap is smaller than chunk size as
required. -/
def chunk_size : Nat := 500

/-- Modelled from the spec: chunker overlap, smaller than chunk size. -/
def overlap : Nat := 50

/-- Sliding-window stride: chunk size minus overlap. -/
def stride : Nat := chunk_size - overlap

/-- Window start offsets covering a page of the given length: multiples of the
stride below the length. -/
def windowStarts (len : Nat) : List Nat :=
  (List.range ((len + stride - 1) / stride)).map (· * stride)

/-- Modelled from the spec, chunker section: one page yields a sliding window
of width chunk size and the given stride; empty or whitespace-only pages yield
zero chunks; chunk ids continue a document-scoped counter. -/
def chunkPage (source : String) (page startId : Nat) (text : String) : List Chunk :=
  let cs := text.data
  if cs.all isJsWhitespace then []
  else
    (windowStarts cs.length).enum.map (fun p =>
      { source := source, page := page, chunk_id := startId + p.1,
        text := String.mk ((cs.drop p.2).take chunk_size),
        char_span := (p.2, min (p.2 + chunk_size) cs.length) })

/-- Modelled from the spec: chunk a whole document, pages in order, with one
monotonically increasing chunk counter across pages. -/
def chunkDocument (document_id : String) (pages : List (Nat × String)) : List Chunk :=
  (pages.foldl
    (fun acc p =>
      let cs := chunkPage document_id p.1 acc.2 p.2
      (acc.1 ++ cs, acc.2 + cs.length))
    ([], 0)).1

/-- Modelled from the spec: the embedder is a pluggable model-backed
capability; only determinism, order preservation and one fixed-dimension
vector per input text matter to the claims, so a simple concrete stand-in is
used. -/
def embedOne (t : String) : List Rat :=
  [(t.length : Rat), ((t.data.foldl (fun a c => a + c.toNat) 0 : Nat) : Rat)]

/-- Failure of the embedder on malformed input. -/
inductive EmbeddingFailure where
  | emptyInput
deriving Repr, DecidableEq

/-- Modelled from the spec, embedder section: order-preserving batch embedding
that fails on an empty list of texts and never returns fewer vectors than
inputs. -/
def embed (ts : List String) : Except EmbeddingFailure (List (List Rat)) :=
  if ts.isEmpty then .error .emptyInput else .ok (ts.map embedOne)

/-- The vector index and metadata store pair, kept as two parallel lists so
that the alignment invariant is a provable property rather than a built-in. -/
structure Store where
  vectors : List (List Rat)
  metadata : List Chunk
deriving Repr, DecidableEq

/-- The empty store. -/
def emptyStore : Store := { vectors := [], metadata := [] }

/-- Errors surfaced by the ingestion pipeline. -/
inductive IngestError where
  | ExtractionEmpty
  | EmbeddingError
deriving Repr, DecidableEq

/-- Modelled from the spec, ingestion pipeline: chunk, embed, append to both
stores, report the number of chunks; a document yielding zero chunks is
rejected with ExtractionEmpty and changes nothing. -/
def ingest (st : Store) (document_id : String) (pages : List (Nat × String)) :
    Except IngestError (Store × Nat) :=
  let chunks := chunkDocument document_id pages
  if chunks.isEmpty then .error .ExtractionEmpty
  else
    match embed (chunks.map (·.text)) with
    | .error _ => .error .EmbeddingError
    | .ok vecs =>
      .ok ({ vectors := st.vectors ++ vecs, metadata := st.metadata ++ chunks },
           chunks.length)

/-- Modelled from the spec: clear empties both stores together. -/
def clear (_st : Store) : Store := emptyStore

/-- Modelled from the spec: stats reports the vector count and the metadata
count as a pair. -/
def stats (st : Store) : Nat × Nat :=
  (st.vectors.length, st.metadata.length)

/-- One mutating operation on the store, as issued through the API. -/
inductive Op where
  | ingestOp (document_id : String) (pages : List (Nat × String))
  | clearOp
deriving Repr

/-- Apply one operation; a failed ingest leaves the store unchanged. -/
def applyOp (st : Store) : Op → Store
  | .ingestOp d p =>
    match ingest st d p with
    | .ok r => r.1
    | .error _ => st
  | .clearOp => clear st

/-- Run a sequence of operations from the empty store. -/
def runOps (ops : List Op) : Store :=
  ops.foldl applyOp emptyStore

/-! ## Retrieval, extraction and ranking, modelled from the spec -/

/-- Modelled from the spec: inner-product similarity between two vectors. -/
def similarity (q v : List Rat) : Rat :=
  (q.zip v).foldl (fun a p => a + p.1 * p.2) 0

/-- Insert into a list already sorted by the strict comes-before test. -/
def insertRanked (before : α → α → Bool) (x : α) : List α → List α
  | [] => [x]
  | y :: ys => if before x y then x :: y :: ys else y :: insertRanked before x ys

/-- Insertion sort by a comes-before test. -/
def sortRanked (before : α → α → Bool) : List α → List α
  | [] => []
  | x :: xs => insertRanked before x (sortRanked before xs)

/-- Search order on scored index positions: descending similarity, ties broken
by ascending index position, as in the vector index section of the spec. -/
def searchBefore (a b : Nat × Rat) : Bool :=
  if b.2 < a.2 then true
  else if a.2 = b.2 then decide (a.1 ≤ b.1)
  else false

/-- A retrieval candidate: a chunk together with its similarity score. -/
structure Candidate where
  chunk : Chunk
  similarity_score : Rat
deriving Repr, DecidableEq

/-- Errors surfaced by retrieval. -/
inductive QueryError where
  | IndexNotReady
deriving Repr, DecidableEq

/-- Modelled from the spec, retrieval engine: embed the query once, score and
rank every stored vector, and map index positions to metadata through the
alignment invariant.  Ranking the whole index realises the re-query-with-a-
larger-k loop of the spec at its limit. -/
def candidatesAll (st : Store) (queryText : String) : List Candidate :=
  (sortRanked searchBefore
      (st.vectors.enum.map (fun p => (p.1, similarity (embedOne queryText) p.2)))).filterMap
    (fun p => (st.metadata.get? p.1).map
      (fun c => { chunk := c, similarity_score := p.2 }))

/-- Modelled from the spec: the candidate list retrieval returns, after the
optional source filter discards candidates from other documents, truncated to
the requested count. -/
def retrieveList (st : Store) (queryText : String) (top_k : Nat)
    (source_filter : Option String) : List Candidate :=
  match source_filter with
  | none => (candidatesAll st queryText).take top_k
  | some f =>
    ((candidatesAll st queryText).filter (fun c => c.chunk.source == f)).take top_k

/-- Modelled from the spec, retrieval engine: an empty vector index fails with
IndexNotReady; zero matches after filtering is instead a valid empty result. -/
def retrieve (st : Store) (queryText : String) (top_k : Nat)
    (source_filter : Option String) : Except QueryError (List Candidate) :=
  if st.vectors.isEmpty then .error .IndexNotReady
  else .ok (retrieveList st queryText top_k source_filter)

/-- One answer-extractor result: a span of the candidate text and a local
confidence in the unit interval. -/
structure Extraction where
  span : String
  conf : Rat
deriving Repr, DecidableEq

/-- Modelled from the spec: the answer extractor is a pluggable model-backed
capability; this deterministic stand-in returns the case-insensitive match of
the query inside the candidate text with a fixed high confidence, and an empty
span with zero confidence otherwise. -/
def extract_span (queryText ctext : String) : Extraction :=
  match findSub (lowerChars queryText.data) (lowerChars ctext.data) with
  | some i =>
    { span := String.mk ((ctext.data.drop i).take queryText.data.length),
      conf := mkRat 9 10 }
  | none => { span := "", conf := 0 }

/-- Modelled from the spec: the configured minimum local-confidence threshold
below which no answer is reported (no concrete value is fixed by the spec). -/
def minConfidence : Rat := mkRat 1 10

/-- Ranking order on extracted candidates: descending local confidence, ties
broken by descending retrieval similarity, as in the ranking section of the
spec. -/
def rankBefore (a b : Candidate × Extraction) : Bool :=
  if b.2.conf < a.2.conf then true
  else if a.2.conf = b.2.conf then decide (b.1.similarity_score ≤ a.1.similarity_score)
  else false

/-- The source entry shown to the caller for one ranked candidate. -/
def toSourceEntry (c : Candidate) : SourceEntry :=
  { source := c.chunk.source, page := c.chunk.page, chunk_id := c.chunk.chunk_id,
    text := c.chunk.text, score := some c.similarity_score }

/-- The answer payload returned to the caller. -/
structure AnswerResult where
  answer : String
  confidence : Option Rat
  sources : List SourceEntry
deriving Repr, DecidableEq

/-- Modelled from the spec, ranking and confidence policy: order candidates by
confidence then similarity, expose them all as sources, report the top span
and its local confidence — unless every local confidence is below the minimum
threshold, in which case the answer is empty and the confidence is omitted. -/
def rankPolicy (xs : List (Candidate × Extraction)) : AnswerResult :=
  match sortRanked rankBefore xs with
  | [] => { answer := "", confidence := none, sources := [] }
  | top :: rest =>
    if top.2.conf < minConfidence then
      { answer := "", confidence := none,
        sources := (top :: rest).map (fun p => toSourceEntry p.1) }
    else
      { answer := top.2.span, confidence := some top.2.conf,
        sources := (top :: rest).map (fun p => toSourceEntry p.1) }

/-- Modelled from the spec: the full answer operation, retrieval followed by
extraction over every candidate and the ranking policy. -/
def answerOp (st : Store) (queryText : String) (top_k : Nat)
    (source_filter : Option String) : Except QueryError AnswerResult :=
  match retrieve st queryText top_k source_filter with
  | .error e => .error e
  | .ok cands =>
    .ok (rankPolicy (cands.map (fun c => (c, extract_span queryText c.chunk.text))))

/-- A store holding one short ingested document, used to exhibit concrete
behaviours of the model. -/
def exampleStore : Store :=
  match ingest emptyStore "a.pdf" [(1, "hello world")] with
  | .ok r => r.1
  | .error _ => emptyStore

/-- A below-threshold extraction result paired with its candidate, used as a
concrete input. -/
def lowCand : Candidate × Extraction :=
  ({ chunk := { source := "a.pdf", page := 1, chunk_id := 0, text := "t", char_span := (0, 1) },
     similarity_score := 1 },
   { span := "", conf := 0 })

/-- A response body carrying an empty answer and no numeric confidence. -/
def emptyAnswerData : ResponseData :=
  { error := none, detail := none, answer := some "", confidence := none, sources := none }

/-! ## Helper lemmas -/

/-- A string whose characters are all whitespace trims to the empty list. -/
theorem trimJs_eq_nil_of_all (q : String) (h : q.data.all isJsWhitespace = true) :
    trimJs q = [] := by
  unfold trimJs
  have h1 : q.data.dropWhile isJsWhitespace = [] :=
    List.dropWhile_eq_nil_iff.mpr (List.all_eq_true.mp h)
  rw [h1]
  rfl

/-- Membership in an insertion step. -/
theorem mem_insertRanked {α : Type _} (before : α → α → Bool) (x a : α) (l : List α) :
    a ∈ insertRanked before x l ↔ a = x ∨ a ∈ l := by
  induction l with
  | nil => simp [insertRanked]
  | cons y ys ih =>
    simp only [insertRanked]
    split
    · simp only [List.mem_cons]
    · simp only [List.mem_cons, ih]
      tauto

/-- Sorting a list does not change its members. -/
theorem mem_sortRanked {α : Type _} (before : α → α → Bool) (a : α) (l : List α) :
    a ∈ sortRanked before l ↔ a ∈ l := by
  induction l with
  | nil => simp [sortRanked]
  | cons x xs ih =>
    simp [sortRanked, mem_insertRanked, ih, List.mem_cons]

/-- A successful findSub result is an occurrence. -/
theorem findSub_occursAt (pat : List Char) :
    ∀ (t : List Char) (i : Nat), findSub pat t = some i → occursAt t pat i := by
  intro t
  induction t with
  | nil =>
    intro i h
    simp only [findSub] at h
    split at h
    · rename_i hc
      cases h
      exact hc
    · cases h
  | cons c rest ih =>
    intro i h
    simp only [findSub] at h
    split at h
    · rename_i hc
      cases h
      exact hc
    · obtain ⟨j, hj, hji⟩ := Option.map_eq_some'.mp h
      subst hji
      have hrec := ih j hj
      unfold occursAt at hrec ⊢
      simpa [List.drop_succ_cons] using hrec

/-- A successful findSub result is the first occurrence. -/
theorem findSub_min (pat : List Char) :
    ∀ (t : List Char) (i : Nat), findSub pat t = some i →
      ∀ j, j < i → ¬ occursAt t pat j := by
  intro t
  induction t with
  | nil =>
    intro i h j hj
    simp only [findSub] at h
    split at h
    · cases h
      exact absurd hj (Nat.not_lt_zero j)
    · cases h
  | cons c rest ih =>
    intro i h j hj
    simp only [findSub] at h
    split at h
    · cases h
      exact absurd hj (Nat.not_lt_zero j)
    · rename_i hc
      obtain ⟨k, hk, hki⟩ := Option.map_eq_some'.mp h
      subst hki
      cases j with
      | zero => exact hc
      | succ j' =>
        intro hocc
        exact ih k hk j' (Nat.lt_of_succ_lt_succ hj)
          (by simpa [occursAt, List.drop_succ_cons] using hocc)

/-- When findSub fails there is no occurrence. -/
theorem findSub_none (pat : List Char) :
    ∀ (t : List Char), findSub pat t = none → ∀ j, ¬ occursAt t pat j := by
  intro t
  induction t with
  | nil =>
    intro h j hocc
    simp only [findSub] at h
    split at h
    · cases h
    · rename_i hc
      exact hc (by simpa [occursAt, List.drop_nil] using hocc)
  | cons c rest ih =>
    intro h j hocc
    simp only [findSub] at h
    split at h
    · cases h
    · rename_i hc
      have hrest : findSub pat rest = none := by
        cases hfr : findSub pat rest with
        | none => rfl
        | some k => simp [hfr] at h
      cases j with
      | zero => exact hc hocc
      | succ j' =>
        exact ih hrest j' (by simpa [occursAt, List.drop_succ_cons] using hocc)

/-! ## Claim theorems -/

/-- C3: for every file the user submits, handleUpload validates before any
upload request: missing file, non-PDF content type and size over 25 MB each
report the corresponding error and send no request; otherwise the request is
sent. -/
theorem upload_validation_gate (file : Option JsFile) :
    (file = none →
      handleUpload file =
        { uploadStatus := some { type := .err, msg := "Please choose a PDF to upload." },
          requestSent := false }) ∧
    (∀ f, file = some f → f.type ≠ "application/pdf" →
      handleUpload file =
        { uploadStatus := some { type := .err, msg := "Only PDF files are accepted." },
          requestSent := false }) ∧
    (∀ f, file = some f → f.type = "application/pdf" → f.size > BYTES MAX_MB →
      handleUpload file =
        { uploadStatus := some { type := .err, msg := "File too large (> 25 MB)." },
          requestSent := false }) ∧
    (∀ f, file = some f → f.type = "application/pdf" → f.size ≤ BYTES MAX_MB →
      handleUpload file = { uploadStatus := none, requestSent := true }) := by
  refine ⟨?_, ?_, ?_, ?_⟩
  · rintro rfl
    rfl
  · rintro f rfl hne
    simp [handleUpload, hne]
  · rintro f rfl heq hgt
    simp [handleUpload, heq, hgt]
  · rintro f rfl heq hle
    simp [handleUpload, heq, Nat.not_lt.mpr hle]

/-- Witness for C3: the four validation branches at concrete files. -/
theorem upload_validation_gate_witness :
    handleUpload none =
      { uploadStatus := some { type := .err, msg := "Please choose a PDF to upload." },
        requestSent := false } ∧
    handleUpload (some { type := "text/plain", size := 10 }) =
      { uploadStatus := some { type := .err, msg := "Only PDF files are accepted." },
        requestSent := false } ∧
    handleUpload (some { type := "application/pdf", size := BYTES MAX_MB + 1 }) =
      { uploadStatus := some { type := .err, msg := "File too large (> 25 MB)." },
        requestSent := false } ∧
    handleUpload (some { type := "application/pdf", size := 1000 }) =
      { uploadStatus := none, requestSent := true } :=
  ⟨(upload_validation_gate none).1 rfl,
   (upload_validation_gate _).2.1 _ rfl (by decide),
   (upload_validation_gate _).2.2.1 _ rfl rfl (by decide),
   (upload_validation_gate _).2.2.2 _ rfl rfl (by decide)⟩

/-- C10: the upload validations of the newer and the older App versions agree
on every file, including the error messages. -/
theorem upload_validation_versions_agree (file : Option JsFile) :
    handleUpload file = handleUploadOld file := by
  cases file <;> rfl

/-- C9: a query that is empty or all whitespace sets the error status, sends
no request, and leaves answer, confidence and sources cleared. -/
theorem blank_query_sends_nothing (q sourceFilter : String) (outcome : FetchOutcome)
    (h : q.data.all isJsWhitespace = true) :
    handleQuery q sourceFilter outcome =
      { queryStatus := some { type := .err, msg := "Type a question first." },
        answer := "", confidence := none, sources := [], requests := [] } := by
  have ht : trimJs q = [] := trimJs_eq_nil_of_all q h
  simp [handleQuery, ht]

/-- Witness for C9: a whitespace-only query. -/
theorem blank_query_sends_nothing_witness :
    handleQuery "  " "f.pdf" .abortError =
      { queryStatus := some { type := .err, msg := "Type a question first." },
        answer := "", confidence := none, sources := [], requests := [] } :=
  blank_query_sends_nothing "  " "f.pdf" .abortError (by decide)

/-- C7 counterexample: with no admin value configured, a confirmed clear
request is sent without the X-Admin-Token header, so the request does not
always carry the credential. -/
theorem clear_request_missing_admin_header :
    handleClearIndex true none = some { headers := [("Content-Type", "application/json")] } ∧
    carriesAdminHeader (handleClearIndex true none) = false :=
  ⟨rfl, rfl⟩

/-- C7 amended: a clear request is sent exactly when the user confirms, and it
carries the X-Admin-Token header exactly when the request is sent and an admin
credential is configured (present and nonempty). -/
theorem clear_request_gate (confirmed : Bool) (adminToken : Option String) :
    (handleClearIndex confirmed adminToken).isSome = confirmed ∧
    carriesAdminHeader (handleClearIndex confirmed adminToken) =
      (confirmed && strTruthy adminToken) := by
  cases confirmed with
  | false => exact ⟨rfl, rfl⟩
  | true =>
    refine ⟨rfl, ?_⟩
    cases htok : strTruthy adminToken <;>
      simp [handleClearIndex, clearHeaders, carriesAdminHeader, htok]

/-- C6: handleQuery gives each request a 30 second budget; the timer callback
aborts the in-flight fetch, an aborted fetch reports the timeout error, and
the single request is never retried. -/
theorem query_timeout_behaviour :
    queryTimeoutMs = 30000 ∧
    queryTimeoutHandler = .abortInFlight ∧
    ∀ q sourceFilter : String, (trimJs q).isEmpty = false →
      handleQuery q sourceFilter .abortError =
        { queryStatus := some { type := .err, msg := "Request timed out." },
          answer := "", confidence := none, sources := [],
          requests := [{ query := q, top_k := 3,
                         source_filter := if sourceFilter = "" then none
                                          else some sourceFilter }] } := by
  refine ⟨rfl, rfl, ?_⟩
  intro q f h
  simp [handleQuery, h]

/-- Witness for C6: a concrete timed-out query. -/
theorem query_timeout_behaviour_witness :
    handleQuery "hi" "" .abortError =
      { queryStatus := some { type := .err, msg := "Request timed out." },
        answer := "", confidence := none, sources := [],
        requests := [{ query := "hi", top_k := 3, source_filter := none }] } := by
  have h := query_timeout_behaviour.2.2 "hi" "" (by decide)
  simpa using h

/-- C8: the Highlight component preserves the text — the rendered segments
concatenate back to the input — and when the match occurs case-insensitively
in the text, the marked segment is exactly the slice of the original text at
the first occurrence, of the length of the match. -/
theorem highlight_first_occurrence (text m : List Char) :
    renderText (Highlight text m) = text ∧
    (m ≠ [] → (∃ j, occursAt (lowerChars text) (lowerChars m) j) →
      ∃ idx, occursAt (lowerChars text) (lowerChars m) idx ∧
        (∀ j, j < idx → ¬ occursAt (lowerChars text) (lowerChars m) j) ∧
        Highlight text m =
          .marked (text.take idx) ((text.drop idx).take m.length)
            (text.drop (idx + m.length))) := by
  constructor
  · unfold Highlight
    split
    · rfl
    · cases hf : findSub (lowerChars m) (lowerChars text) with
      | none => rfl
      | some idx =>
        show text.take idx ++ (text.drop idx).take m.length ++
          text.drop (idx + m.length) = text
        have h2 : (text.drop idx).drop m.length = text.drop (idx + m.length) := by
          rw [List.drop_drop]
        rw [← h2, List.append_assoc, List.take_append_drop, List.take_append_drop]
  · intro hm hocc
    cases hf : findSub (lowerChars m) (lowerChars text) with
    | none =>
      obtain ⟨j, hj⟩ := hocc
      exact absurd hj (findSub_none _ _ hf j)
    | some idx =>
      refine ⟨idx, findSub_occursAt _ _ _ hf, findSub_min _ _ _ hf, ?_⟩
      unfold Highlight
      rw [if_neg (by simpa [List.isEmpty_iff] using hm), hf]

/-- Witness for C8: highlighting ell inside Hello World marks the slice at the
first case-insensitive occurrence, index 1. -/
theorem highlight_first_occurrence_witness :
    renderText (Highlight "Hello World".data "ell".data) = "Hello World".data ∧
    ∃ idx, occursAt (lowerChars "Hello World".data) (lowerChars "ell".data) idx ∧
      (∀ j, j < idx → ¬ occursAt (lowerChars "Hello World".data) (lowerChars "ell".data) j) ∧
      Highlight "Hello World".data "ell".data =
        .marked ("Hello World".data.take idx)
          (("Hello World".data.drop idx).take "ell".data.length)
          ("Hello World".data.drop (idx + "ell".data.length)) :=
  ⟨(highlight_first_occurrence "Hello World".data "ell".data).1,
   (highlight_first_occurrence "Hello World".data "ell".data).2 (by decide)
     ⟨1, by decide⟩⟩

/-- The alignment invariant of the spec: the vector index and the metadata
store have the same number of records. -/
def aligned (st : Store) : Prop :=
  st.vectors.length = st.metadata.length

/-- The embedder never returns fewer vectors than inputs. -/
theorem embed_length (ts : List String) (vs : List (List Rat)) (h : embed ts = .ok vs) :
    vs.length = ts.length := by
  unfold embed at h
  split at h
  · cases h
  · cases h
    simp

/-- A successful ingest preserves the alignment invariant. -/
theorem ingest_aligned (st : Store) (d : String) (p : List (Nat × String))
    (st' : Store) (n : Nat) (h : aligned st) (hing : ingest st d p = .ok (st', n)) :
    aligned st' := by
  simp only [ingest] at hing
  by_cases hch : (chunkDocument d p).isEmpty = true
  · rw [if_pos hch] at hing
    cases hing
  · rw [if_neg hch] at hing
    cases hemb : embed ((chunkDocument d p).map (·.text)) with
    | error e =>
      rw [hemb] at hing
      cases hing
    | ok vecs =>
      rw [hemb] at hing
      cases hing
      have hlen := embed_length _ _ hemb
      simp only [List.length_map] at hlen
      simp only [aligned] at h ⊢
      simp only [List.length_append]
      omega

/-- Every operation preserves the alignment invariant. -/
theorem applyOp_aligned (st : Store) (op : Op) (h : aligned st) :
    aligned (applyOp st op) := by
  cases op with
  | clearOp => rfl
  | ingestOp d p =>
    simp only [applyOp]
    cases hing : ingest st d p with
    | error e => exact h
    | ok r => exact ingest_aligned st d p r.1 r.2 h hing

/-- Any sequence of operations from the empty store keeps the invariant. -/
theorem runOps_aligned (ops : List Op) : aligned (runOps ops) := by
  suffices h : ∀ st, aligned st → aligned (ops.foldl applyOp st) from h emptyStore rfl
  induction ops with
  | nil => intro st h; exact h
  | cons op rest ih => intro st h; exact ih _ (applyOp_aligned st op h)

/-- C1: after every sequence of ingest and clear operations the stats pair has
equal vector and metadata counts, and the query UI treats the counts as a
matched pair: it is ready exactly when both are positive. -/
theorem stats_counts_match (ops : List Op) :
    (stats (runOps ops)).1 = (stats (runOps ops)).2 ∧
    (∀ v m : Nat, indexReady v m = true ↔ 0 < v ∧ 0 < m) := by
  refine ⟨runOps_aligned ops, ?_⟩
  intro v m
  simp [indexReady]

/-- Witness for C1: an ingest followed by a clear, and a ready pair. -/
theorem stats_counts_match_witness :
    (stats (runOps [Op.ingestOp "a.pdf" [(1, "hello world")], Op.clearOp])).1 =
      (stats (runOps [Op.ingestOp "a.pdf" [(1, "hello world")], Op.clearOp])).2 ∧
    (indexReady 2 2 = true ↔ 0 < 2 ∧ 0 < 2) :=
  ⟨(stats_counts_match [Op.ingestOp "a.pdf" [(1, "hello world")], Op.clearOp]).1,
   (stats_counts_match []).2 2 2⟩

/-- C2: a query against an empty vector index fails with IndexNotReady and a
nonempty index never does — a filtered-out result is instead a valid empty
success, shown concretely — while the UI disables the Ask action whenever the
reported counts are not both positive. -/
theorem empty_index_not_ready :
    (∀ (st : Store) (q : String) (k : Nat) (f : Option String),
      st.vectors = [] → answerOp st q k f = .error .IndexNotReady) ∧
    (∀ (st : Store) (q : String) (k : Nat) (f : Option String),
      st.vectors ≠ [] → ∃ r, answerOp st q k f = .ok r) ∧
    answerOp exampleStore "q" 3 (some "other.pdf") =
      .ok { answer := "", confidence := none, sources := [] } ∧
    (∀ (loading : Bool) (v m : Nat) (q : String),
      ¬ (0 < v ∧ 0 < m) → askDisabled loading (indexReady v m) q = true) := by
  refine ⟨?_, ?_, by rfl, ?_⟩
  · intro st q k f h
    simp [answerOp, retrieve, h]
  · intro st q k f h
    have hne : st.vectors.isEmpty = false := by simpa [List.isEmpty_iff] using h
    refine ⟨rankPolicy ((retrieveList st q k f).map
      (fun c => (c, extract_span q c.chunk.text))), ?_⟩
    simp [answerOp, retrieve, hne]
  · intro loading v m q h
    have hready : indexReady v m = false := by
      rcases Nat.eq_zero_or_pos v with hv | hv
      · simp [indexReady, hv]
      · rcases Nat.eq_zero_or_pos m with hm | hm
        · simp [indexReady, hm]
        · exact absurd ⟨hv, hm⟩ h
    simp [askDisabled, hready]

/-- Witness for C2: the empty store fails with IndexNotReady and the Ask
button is disabled at zero counts. -/
theorem empty_index_not_ready_witness :
    answerOp emptyStore "hello" 3 none = .error .IndexNotReady ∧
    askDisabled false (indexReady 0 0) "hello" = true :=
  ⟨empty_index_not_ready.1 emptyStore "hello" 3 none rfl,
   empty_index_not_ready.2.2.2 false 0 0 "hello" (by decide)⟩

/-- C4: when every local confidence is below the minimum threshold the ranked
answer is empty with the confidence omitted, and the caller shows a confidence
exactly when the response carries a numeric one and reports no answer when the
answer string is empty. -/
theorem low_confidence_suppresses_answer :
    (∀ xs : List (Candidate × Extraction),
      (∀ p ∈ xs, p.2.conf < minConfidence) →
        (rankPolicy xs).answer = "" ∧ (rankPolicy xs).confidence = none) ∧
    (∀ (q f : String) (s : Nat) (data : ResponseData),
      (trimJs q).isEmpty = false →
        showConfidence (handleQuery q f (.response true s data)) =
          data.confidence.isSome ∧
        ((data.answer.getD "").data.isEmpty = true →
          (handleQuery q f (.response true s data)).queryStatus =
            some { type := .err, msg := "No answer returned." })) := by
  constructor
  · intro xs hall
    cases hs : sortRanked rankBefore xs with
    | nil => simp [rankPolicy, hs]
    | cons top rest =>
      have htop : top ∈ xs :=
        (mem_sortRanked rankBefore top xs).mp (hs ▸ List.mem_cons_self top rest)
      have hlow := hall top htop
      simp [rankPolicy, hs, hlow]
  · intro q f s data hq
    constructor
    · simp [handleQuery, hq, showConfidence]
    · intro hans
      simp [handleQuery, hq, hans]

/-- Witness for C4: a single zero-confidence candidate yields no answer, and
an empty-answer response without numeric confidence shows none and reports the
no-answer status. -/
theorem low_confidence_suppresses_answer_witness :
    ((rankPolicy [lowCand]).answer = "" ∧ (rankPolicy [lowCand]).confidence = none) ∧
    (showConfidence (handleQuery "hi" "" (.response true 200 emptyAnswerData)) =
        emptyAnswerData.confidence.isSome ∧
      (handleQuery "hi" "" (.response true 200 emptyAnswerData)).queryStatus =
        some { type := .err, msg := "No answer returned." }) :=
  ⟨low_confidence_suppresses_answer.1 [lowCand] (by decide),
   ⟨(low_confidence_suppresses_answer.2 "hi" "" 200 emptyAnswerData (by decide)).1,
    (low_confidence_suppresses_answer.2 "hi" "" 200 emptyAnswerData (by decide)).2
      (by decide)⟩⟩

/-- A member of the truncated filtered candidates matches the filter. -/
theorem take_filter_source {f : String} {k : Nat} {l : List Candidate} {c : Candidate}
    (h : c ∈ (l.filter (fun c => c.chunk.source == f)).take k) :
    c.chunk.source = f := by
  have h1 := List.mem_of_mem_take h
  have h2 := (List.mem_filter.mp h1).2
  simpa using h2

/-- The sources of the ranking policy list every ranked candidate, in ranked
order. -/
theorem rankPolicy_sources_eq (xs : List (Candidate × Extraction)) :
    (rankPolicy xs).sources = (sortRanked rankBefore xs).map (fun p => toSourceEntry p.1) := by
  unfold rankPolicy
  split
  · rename_i heq
    rw [heq]
    rfl
  · rename_i top rest heq
    rw [heq]
    split <;> rfl

/-- Every source entry of the ranking policy comes from one of its input
candidates. -/
theorem rankPolicy_sources_mem (xs : List (Candidate × Extraction)) (e : SourceEntry)
    (h : e ∈ (rankPolicy xs).sources) : ∃ p ∈ xs, e = toSourceEntry p.1 := by
  rw [rankPolicy_sources_eq] at h
  obtain ⟨p, hp, hpe⟩ := List.mem_map.mp h
  exact ⟨p, (mem_sortRanked _ _ _).mp hp, hpe.symm⟩

/-- C5: with a source filter set, every entry of the answer sources equals the
filter, and the caller sends the selected filter, or null when none is
selected, with each request. -/
theorem source_filter_restricts_sources :
    (∀ (st : Store) (q : String) (k : Nat) (f : String) (r : AnswerResult),
      answerOp st q k (some f) = .ok r → ∀ e ∈ r.sources, e.source = f) ∧
    (∀ (q f : String) (outcome : FetchOutcome), (trimJs q).isEmpty = false →
      (handleQuery q f outcome).requests =
        [{ query := q, top_k := 3,
           source_filter := if f = "" then none else some f }]) := by
  constructor
  · intro st q k f r hr e he
    cases hemp : st.vectors.isEmpty with
    | true =>
      unfold answerOp retrieve at hr
      rw [hemp] at hr
      simp at hr
    | false =>
      unfold answerOp retrieve at hr
      rw [hemp] at hr
      simp only [Bool.false_eq_true, if_false] at hr
      cases hr
      obtain ⟨p, hp, rfl⟩ := rankPolicy_sources_mem _ _ he
      obtain ⟨c, hc, rfl⟩ := List.mem_map.mp hp
      have hmem : c ∈ ((candidatesAll st q).filter
          (fun c => c.chunk.source == f)).take k := by
        simpa [retrieveList] using hc
      exact take_filter_source hmem
  · intro q f outcome hq
    cases outcome with
    | response ok status data =>
      simp only [handleQuery, hq, Bool.false_eq_true, if_false]
      split <;> rfl
    | abortError => simp [handleQuery, hq]
    | networkError m => simp [handleQuery, hq]

/-- The concrete answer the model returns for a filtered query over the
example store. -/
def exampleAnswer : AnswerResult :=
  match answerOp exampleStore "hello" 3 (some "a.pdf") with
  | .ok r => r
  | .error _ => { answer := "", confidence := none, sources := [] }

/-- Witness for C5: a filtered query over the example store returns only
sources from the filtered document (its nonempty source list is all a.pdf),
and a concrete request carries the selected filter. -/
theorem source_filter_restricts_sources_witness :
    (∀ e ∈ exampleAnswer.sources, e.source = "a.pdf") ∧
    exampleAnswer.sources.map (fun e => e.source) = ["a.pdf"] ∧
    (handleQuery "hi" "x.pdf" .abortError).requests =
      [{ query := "hi", top_k := 3, source_filter := some "x.pdf" }] :=
  ⟨source_filter_restricts_sources.1 exampleStore "hello" 3 "a.pdf" exampleAnswer (by rfl),
   by rfl,
   by
    have h := source_filter_restricts_sources.2 "hi" "x.pdf" .abortError (by decide)
    simpa using h⟩
